import Mathlib

/-!
Shallow embedding of the analytics core of the covered-call dashboard
(src/src/main.jsx): premium arithmetic, the dashboard's derived totals,
time-series bucketing, the tax classifier, the annualized-yield engine,
the strategy comparator and the trade post-mortem.  Monetary values are
modelled as rationals, date strings as Lean strings, and the optional
override fields as Option values (the stored records hold either a
parseFloat result or undefined, so "field != null" is exactly isSome).
-/

namespace CCDash

/-! ### Date-string machinery (today, parseLocalDate, daysBetween) -/

/-- JavaScript Number(...) as applied to the dash-separated date fields the
source splits: a nonempty all-digit field parses to its decimal value;
other fields are NaN, modelled as none. -/
def jsDigits (s : String) : Option Int :=
  if !s.data.isEmpty && s.data.all Char.isDigit then
    some (s.data.foldl (fun n ch => 10 * n + ((ch.toNat : Int) - 48)) 0)
  else none

/-- JavaScript s.split("-") on the character list of s (the source only ever
splits on the one-character separator "-"). -/
def splitDash : List Char → List (List Char)
  | [] => [[]]
  | c :: t =>
    let r := splitDash t
    if c = '-' then [] :: r
    else
      match r with
      | [] => [[c]]
      | h :: t2 => (c :: h) :: t2

def splitOnDashS (s : String) : List String := (splitDash s.data).map String.mk

/-- The year/month/day triple destructured from s.split("-").map(Number). -/
structure YMD where
  y : Int
  m : Int
  d : Int
deriving DecidableEq

/-- The destructuring `const [y, m, d] = s.split("-").map(Number)`: none
when any of the three fields is NaN (a missing field or a non-digit
field), which in the source yields an Invalid Date and NaN day arithmetic
downstream. -/
def parseYMD (s : String) : Option YMD :=
  match (splitOnDashS s).map jsDigits with
  | some y :: some m :: some d :: _ => some ⟨y, m, d⟩
  | _ => none

/-- Rata-die day number of the civil date denoted by new Date(y, m-1, d),
including JavaScript's rollover of out-of-range month and day values;
day 0 is 1970-01-01. -/
def civilRD (x : YMD) : Int :=
  let y := x.y + (x.m - 1).fdiv 12
  let m := (x.m - 1).emod 12 + 1
  let yy := if m ≤ 2 then y - 1 else y
  let era := yy.fdiv 400
  let yoe := yy - era * 400
  let mp := (m + 9).emod 12
  let doy := (153 * mp + 2).fdiv 5 + x.d - 1
  let doe := yoe * 365 + yoe.fdiv 4 - yoe.fdiv 100 + doy
  era * 146097 + doe - 719468

/-- Inverse of civilRD on canonical dates: the year, month and day a Date
holding rata-die z reports through getFullYear/getMonth/getDate. -/
def rdToYMD (z0 : Int) : YMD :=
  let z := z0 + 719468
  let era := z.fdiv 146097
  let doe := z - era * 146097
  let yoe := (doe - doe.fdiv 1460 + doe.fdiv 36524 - doe.fdiv 146096).fdiv 365
  let y := yoe + era * 400
  let doy := doe - (365 * yoe + yoe.fdiv 4 - yoe.fdiv 100)
  let mp := (5 * doy + 2).fdiv 153
  let d := doy - (153 * mp + 2).fdiv 5 + 1
  let m := mp + (if mp < 10 then 3 else -9)
  ⟨y + (if m ≤ 2 then 1 else 0), m, d⟩

/-- String(n).padStart(2, "0"). -/
def pad2 (n : Int) : String :=
  if 0 ≤ n ∧ n < 10 then "0" ++ toString n else toString n

/-- The source's today()-style formatting of a date:
year + "-" + 2-padded month + "-" + 2-padded day. -/
def fmtRD (z : Int) : String :=
  let c := rdToYMD z
  toString c.y ++ "-" ++ pad2 c.m ++ "-" ++ pad2 c.d

/-- getDay(): 0 = Sunday.  Day 0 (1970-01-01) was a Thursday. -/
def dayOfWeek (rd : Int) : Int := (rd + 4).emod 7

/-- parseLocalDate: an empty string falls back to the current instant in the
source; modelled as today's calendar date (todayStr is the string the
source's today() produced). -/
def parseLocalDate (todayStr s : String) : Option YMD :=
  if s = "" then parseYMD todayStr else parseYMD s

/-- daysBetween(a, b) = Math.round((parseLocalDate(b) - parseLocalDate(a)) / 86400000):
the whole-calendar-day difference; none models the NaN produced by an
unparseable date. -/
def daysBetween (todayStr a b : String) : Option Int :=
  match parseLocalDate todayStr a, parseLocalDate todayStr b with
  | some x, some yv => some (civilRD yv - civilRD x)
  | _, _ => none

/-- v > k with JavaScript NaN semantics: NaN compares false. -/
def optGT (o : Option Int) (k : Int) : Bool :=
  match o with
  | some v => decide (k < v)
  | none => false

/-- Math.abs(v) <= k with JavaScript NaN semantics: NaN compares false. -/
def optAbsLE (o : Option Int) (k : Int) : Bool :=
  match o with
  | some v => decide (|v| ≤ k)
  | none => false

/-! ### Data model -/

inductive CallStatus
  | open_
  | expired
  | closed
  | assigned
deriving DecidableEq

/-- A written call record as stored in the snapshot.  dateClosed is the
empty string when absent (the forms store "" for an open call); the two
override fields and closePrice are numbers or undefined, hence Option. -/
structure Call where
  id : Int
  ticker : String
  strike : ℚ
  premium : ℚ
  contracts : ℚ
  dateOpened : String
  expiration : String
  status : CallStatus
  dateClosed : String
  closePrice : Option ℚ
  totalPremium : Option ℚ
  totalCloseCost : Option ℚ
deriving DecidableEq

structure Position where
  ticker : String
  shares : ℚ
  costBasis : ℚ
  dateAcquired : String
deriving DecidableEq

/-! ### Premium arithmetic (main.jsx lines 110-112) -/

/-- grossPrem: c.totalPremium != null ? c.totalPremium : c.premium * c.contracts * 100. -/
def grossPrem (c : Call) : ℚ :=
  match c.totalPremium with
  | some v => v
  | none => c.premium * c.contracts * 100

/-- closeCostOf: c.totalCloseCost != null ? c.totalCloseCost :
(status === "closed" ? (c.closePrice || 0) * c.contracts * 100 : 0). -/
def closeCostOf (c : Call) : ℚ :=
  match c.totalCloseCost with
  | some v => v
  | none =>
    if c.status = CallStatus.closed then c.closePrice.getD 0 * c.contracts * 100 else 0

/-- netPrem: grossPrem(c) - closeCostOf(c). -/
def netPrem (c : Call) : ℚ := grossPrem c - closeCostOf c

/-! ### Dashboard totals (main.jsx lines 505-511) -/

/-- totalPremiumCollected: data.calls.reduce with closed adding
prem - closeCost, open adding nothing, every other status adding prem. -/
def totalPremiumCollected (calls : List Call) : ℚ :=
  calls.foldl
    (fun sum c =>
      if c.status = CallStatus.closed then sum + grossPrem c - closeCostOf c
      else if c.status = CallStatus.open_ then sum
      else sum + grossPrem c)
    0

/-- totalCapitalDeployed: Σ costBasis * shares over positions. -/
def totalCapitalDeployed (positions : List Position) : ℚ :=
  positions.foldl (fun sum p => sum + p.costBasis * p.shares) 0

/-! ### Time-series bucketing (main.jsx lines 520-557) -/

/-- The keying date string of a record: c.dateClosed || c.dateOpened. -/
def keyStrOf (c : Call) : String :=
  if c.dateClosed = "" then c.dateOpened else c.dateClosed

/-- A JavaScript number as produced by Number(string): NaN, an infinity,
or a finite value mant x 10^scale.  Exact decimal values stand in for IEEE
doubles; truthiness and the Date constructor's integer truncation agree
with the doubles except where rounding itself would matter (an exponent
past the double range underflowing to 0 or overflowing to Infinity). -/
inductive JSNum
  | nan
  | posInf
  | negInf
  | val (mant : Int) (scale : Int)
deriving DecidableEq

/-- JavaScript falsiness of a Number: NaN and 0 (and -0) are falsy. -/
def jsFalsy : JSNum → Bool
  | JSNum.nan => true
  | JSNum.val m _ => decide (m = 0)
  | _ => false

/-- ToIntegerOrInfinity as the Date constructor applies it: truncation
toward zero for finite values; none for NaN and the infinities, on which
MakeDay yields an Invalid Date. -/
def jsToInt : JSNum → Option Int
  | JSNum.val m sc =>
    some (if 0 ≤ sc then m * 10 ^ sc.toNat else m.tdiv (10 ^ (-sc).toNat))
  | _ => none

/-- The subtraction m - 1 inside new Date(y, m - 1, d), performed on the
Number before truncation. -/
def jsSub1 : JSNum → JSNum
  | JSNum.val m sc =>
    if 0 ≤ sc then JSNum.val (m * 10 ^ sc.toNat - 1) 0
    else JSNum.val (m - 10 ^ (-sc).toNat) sc
  | n => n

/-- StrWhiteSpaceChar: the whitespace and line terminators Number() trims. -/
def jsWS (c : Char) : Bool :=
  decide (c.toNat ∈ [9, 10, 11, 12, 13, 32, 160, 5760, 8232, 8233, 8239, 8287, 12288, 65279]
    ∨ (8192 ≤ c.toNat ∧ c.toNat ≤ 8202))

def trimWS (l : List Char) : List Char :=
  ((l.dropWhile jsWS).reverse.dropWhile jsWS).reverse

/-- Decimal value of a digit string. -/
def digitsVal (l : List Char) : Int :=
  l.foldl (fun n c => 10 * n + ((c.toNat : Int) - 48)) 0

/-- Hexadecimal digit value, when c is one. -/
def hexDigit (c : Char) : Option Nat :=
  if c.isDigit then some (c.toNat - 48)
  else if 'a' ≤ c ∧ c ≤ 'f' then some (c.toNat - 87)
  else if 'A' ≤ c ∧ c ≤ 'F' then some (c.toNat - 55)
  else none

/-- A nonempty digit string in the given radix (2, 8 or 16), as used by the
0b/0o/0x NonDecimalIntegerLiteral forms. -/
def radixNum (base : Nat) (l : List Char) : Option Int :=
  match l with
  | [] => none
  | _ =>
    l.foldl
      (fun acc c =>
        match acc, hexDigit c with
        | some n, some d => if d < base then some ((base : Int) * n + (d : Int)) else none
        | _, _ => none)
      (some 0)

/-- ExponentPart after the e/E: a SignedInteger. -/
def parseExp : List Char → Option Int
  | [] => none
  | '+' :: r => if !r.isEmpty && r.all Char.isDigit then some (digitsVal r) else none
  | '-' :: r => if !r.isEmpty && r.all Char.isDigit then some (-(digitsVal r)) else none
  | r => if !r.isEmpty && r.all Char.isDigit then some (digitsVal r) else none

/-- An unsigned StrUnsignedDecimalLiteral without the Infinity form:
digits [. digits] [exponent] with at least one digit; the result is the
pair (mant, scale) denoting mant x 10^scale. -/
def parseDecBody (l : List Char) : Option (Int × Int) :=
  let ip := l.takeWhile Char.isDigit
  let r1 := l.dropWhile Char.isDigit
  match r1 with
  | '.' :: r2 =>
    let fp := r2.takeWhile Char.isDigit
    let r3 := r2.dropWhile Char.isDigit
    if ip.isEmpty && fp.isEmpty then none
    else
      let mant := digitsVal (ip ++ fp)
      let sc : Int := -(fp.length : Int)
      match r3 with
      | [] => some (mant, sc)
      | e :: r4 =>
        if e = 'e' ∨ e = 'E' then (parseExp r4).map fun ex => (mant, sc + ex) else none
  | e :: r2 =>
    if ip.isEmpty then none
    else if e = 'e' ∨ e = 'E' then (parseExp r2).map fun ex => (digitsVal ip, ex)
    else none
  | [] => if ip.isEmpty then none else some (digitsVal ip, 0)

def decUnsigned (neg : Bool) (l : List Char) : JSNum :=
  if l = ['I', 'n', 'f', 'i', 'n', 'i', 't', 'y'] then
    if neg then JSNum.negInf else JSNum.posInf
  else
    match parseDecBody l with
    | some (m, sc) => JSNum.val (if neg then -m else m) sc
    | none => JSNum.nan

def decSigned : List Char → JSNum
  | '+' :: r => decUnsigned false r
  | '-' :: r => decUnsigned true r
  | r => decUnsigned false r

/-- Number(s) on a string: trimmed whitespace, "" is 0, a 0x/0o/0b integer
literal (no sign), or a signed decimal literal or Infinity; NaN otherwise. -/
def jsNumber (s : String) : JSNum :=
  match trimWS s.data with
  | [] => JSNum.val 0 0
  | '0' :: c :: r =>
    if c = 'x' ∨ c = 'X' then
      match radixNum 16 r with | some n => JSNum.val n 0 | none => JSNum.nan
    else if c = 'o' ∨ c = 'O' then
      match radixNum 8 r with | some n => JSNum.val n 0 | none => JSNum.nan
    else if c = 'b' ∨ c = 'B' then
      match radixNum 2 r with | some n => JSNum.val n 0 | none => JSNum.nan
    else decSigned ('0' :: c :: r)
  | l => decSigned l

/-- The bucket-key date string computed from new Date(y, m - 1, d): a NaN
or infinite component, or a result outside the ±100000000-day Date range
(the TimeClip bound, taken at UTC - the zone offset at the extreme
boundary is ignored), gives an Invalid Date whose fields format as
"NaN-NaN-NaN"; a two-digit truncated year means 1900 + y; otherwise the
Sunday starting the date's week, formatted as a date. -/
def weekDateKey (yn mn dn : JSNum) : String :=
  match jsToInt yn, jsToInt (jsSub1 mn), jsToInt dn with
  | some yi, some mi, some di =>
    let yr := if 0 ≤ yi ∧ yi ≤ 99 then 1900 + yi else yi
    let r := civilRD ⟨yr, mi + 1, di⟩
    if r.natAbs ≤ 100000000 then
      let ws := r - dayOfWeek r
      if ws.natAbs ≤ 100000000 then fmtRD ws else "NaN-NaN-NaN"
    else "NaN-NaN-NaN"
  | _, _, _ => "NaN-NaN-NaN"

/-- The weekly bucket key: none exactly when the record is skipped
(`if (!y) return`, i.e. Number of the leading dash-field is falsy - NaN
or 0); otherwise the key new Date(y, m - 1, d) produces, with a missing
month or day field standing for NaN (undefined converts to NaN). -/
def weekKey (s : String) : Option String :=
  match (splitOnDashS s).map jsNumber with
  | [] => none
  | yn :: rest =>
    if jsFalsy yn then none
    else
      match rest with
      | [] => some (weekDateKey yn JSNum.nan JSNum.nan)
      | [mn] => some (weekDateKey yn mn JSNum.nan)
      | mn :: dn :: _ => some (weekDateKey yn mn dn)

/-- weeks[key] = (weeks[key] || 0) + net on a JavaScript object whose keys
are non-index strings: first occurrence fixes the entry's position. -/
def upsert (l : List (String × ℚ)) (k : String) (v : ℚ) : List (String × ℚ) :=
  match l with
  | [] => [(k, v)]
  | (k0, v0) :: t => if k0 = k then (k0, v0 + v) :: t else (k0, v0) :: upsert t k v

/-- Insert keeping keys in ascending lexicographic order. -/
def insertByKey (x : String × ℚ) : List (String × ℚ) → List (String × ℚ)
  | [] => [x]
  | h :: t => if h.1.data < x.1.data then h :: insertByKey x t else x :: h :: t

/-- Object.entries(...).sort(([a],[b]) => a.localeCompare(b)): ascending by
key (the keys produced here are ASCII, where localeCompare agrees with
lexicographic codepoint order, and distinct, so the order is unique). -/
def sortByKey (l : List (String × ℚ)) : List (String × ℚ) :=
  l.foldr insertByKey []

/-- Math.round(x * 100) / 100: cents rounding, halves toward +infinity. -/
def roundCents (x : ℚ) : ℚ := (⌊x * 100 + 1 / 2⌋ : ℤ) / 100

structure SeriesRow where
  label : String
  amount : ℚ
  cumulative : ℚ
deriving DecidableEq

/-- The sorted.map pass: running cumulative sum at full precision, amounts
and cumulative rounded to cents at output. -/
def cumSeries (labelOf : String → String) : ℚ → List (String × ℚ) → List SeriesRow
  | _, [] => []
  | cum, (k, a) :: t =>
    ⟨labelOf k, roundCents a, roundCents (cum + a)⟩ :: cumSeries labelOf (cum + a) t

def strTake (n : Nat) (s : String) : String := String.mk (s.data.take n)

def strDrop (n : Nat) (s : String) : String := String.mk (s.data.drop n)

def weekBuckets (calls : List Call) : List (String × ℚ) :=
  (calls.filter fun c => decide (c.status ≠ CallStatus.open_)).foldl
    (fun acc c =>
      match weekKey (keyStrOf c) with
      | none => acc
      | some k => upsert acc k (netPrem c))
    []

/-- premiumByWeek: the chart rows, labelled by key.slice(5). -/
def premiumByWeek (calls : List Call) : List SeriesRow :=
  cumSeries (strDrop 5) 0 (sortByKey (weekBuckets calls))

/-- The monthly bucket key (dateStr || "").slice(0, 7): none when the record
is skipped (`if (!key || key.length < 7) return`). -/
def monthKey (s : String) : Option String :=
  let k := strTake 7 s
  if k.length < 7 then none else some k

def monthBuckets (calls : List Call) : List (String × ℚ) :=
  (calls.filter fun c => decide (c.status ≠ CallStatus.open_)).foldl
    (fun acc c =>
      match monthKey (keyStrOf c) with
      | none => acc
      | some k => upsert acc k (netPrem c))
    []

/-- premiumByMonth: the chart rows, labelled by the month key itself. -/
def premiumByMonth (calls : List Call) : List SeriesRow :=
  cumSeries id 0 (sortByKey (monthBuckets calls))

/-! ### Tax classifier (main.jsx lines 558-571) -/

structure TaxRow where
  call : Call
  held : Option Int
  net : ℚ
  treatment : String
  washSaleRisk : Bool

/-- One row of taxData for a non-open call c of the snapshot. -/
def mkTaxRow (todayStr : String) (calls : List Call) (c : Call) : TaxRow :=
  let held := daysBetween todayStr c.dateOpened (if c.dateClosed = "" then todayStr else c.dateClosed)
  let net := netPrem c
  let treatment := if optGT held 365 then "Long-term" else "Short-term"
  let isLoss := decide (net < 0)
  let nearbyTrades := calls.filter fun o =>
    decide (o.id ≠ c.id) && decide (o.ticker = c.ticker) &&
      optAbsLE (daysBetween todayStr (if c.dateClosed = "" then todayStr else c.dateClosed) o.dateOpened) 30
  { call := c, held := held, net := net, treatment := treatment
    washSaleRisk := isLoss && decide (0 < nearbyTrades.length) }

/-- taxData: one row per non-open call. -/
def taxData (todayStr : String) (calls : List Call) : List TaxRow :=
  (calls.filter fun c => decide (c.status ≠ CallStatus.open_)).map (mkTaxRow todayStr calls)

/-! ### Annualized yield (main.jsx lines 574-582) -/

/-- data.calls.map(c => c.dateOpened).filter(Boolean).sort()[0]: the
lexicographically smallest nonempty open-date string. -/
def earliestOpenDate (calls : List Call) : Option String :=
  match (calls.map Call.dateOpened).filter (fun s => decide (s ≠ "")) with
  | [] => none
  | h :: t => some (t.foldl (fun a b => if a.data < b.data then a else b) h)

/-- annualizedYield; none models the NaN the source produces when the
earliest open-date string does not parse (NaN <= 0 is false, so the source
falls through to the division). -/
def annualizedYield (todayStr : String) (positions : List Position) (calls : List Call) :
    Option ℚ :=
  if totalCapitalDeployed positions = 0 then some 0
  else
    match earliestOpenDate calls with
    | none => some 0
    | some first =>
      match daysBetween todayStr first todayStr with
      | none => none
      | some ds =>
        if ds ≤ 0 then some 0
        else some (totalPremiumCollected calls / totalCapitalDeployed positions * (365 / (ds : ℚ)))

/-! ### Strategy comparator (main.jsx lines 1350-1404) -/

/-- toUpperCase() on the ASCII tickers the forms store. -/
def jsToUpper (s : String) : String := String.mk (s.data.map Char.toUpper)

/-- livePrices[ticker] on the fetched price object. -/
def priceLookup (prices : List (String × ℚ)) (t : String) : Option ℚ :=
  (prices.find? fun kv => decide (kv.1 = t)).map Prod.snd

structure Comparison where
  ticker : String
  totalShares : ℚ
  totalCost : ℚ
  /-- totalCost / totalShares; none models the NaN of a zero share count. -/
  avgBasis : Option ℚ
  mktPrice : Option ℚ
  grossPremium : ℚ
  netPremium : ℚ
  assignedShares : ℚ
  currentShares : ℚ
  assignmentProceeds : ℚ
  buyHoldReturn : Option ℚ
  /-- none models both the null of a missing return and the infinite
  percentage of a zero totalCost. -/
  buyHoldPct : Option ℚ
  ccReturn : Option ℚ
  ccPct : Option ℚ
  alpha : Option ℚ
  alphaPct : Option ℚ
  daysHeld : Option Int
  premiumYieldPct : ℚ
  premiumAnnualized : ℚ

/-- One row of the Strategy Comparator for a ticker of the tickers list.
The source tests buyHoldValue and ccValue for truthiness, not null-ness,
before subtracting totalCost, so a zero value yields a null return even
when the market price is known. -/
def comparisonFor (todayStr : String) (positions : List Position) (calls : List Call)
    (livePrices : List (String × ℚ)) (ticker : String) : Comparison :=
  let ps := positions.filter fun p => decide (jsToUpper p.ticker = ticker)
  let totalShares := ps.foldl (fun s p => s + p.shares) 0
  let totalCost := ps.foldl (fun s p => s + p.costBasis * p.shares) 0
  let avgBasis : Option ℚ := if totalShares = 0 then none else some (totalCost / totalShares)
  let mktPrice : Option ℚ :=
    match priceLookup livePrices ticker with
    | some v => if v = 0 then none else some v
    | none => none
  let tickerCalls := calls.filter fun c => decide (jsToUpper c.ticker = ticker)
  let grossPremium := tickerCalls.foldl (fun s c => s + grossPrem c) 0
  let closeCosts := tickerCalls.foldl (fun s c => s + closeCostOf c) 0
  let netPremium := grossPremium - closeCosts
  let assignedCalls := tickerCalls.filter fun c => decide (c.status = CallStatus.assigned)
  let assignedShares := assignedCalls.foldl (fun s c => s + c.contracts * 100) 0
  let currentShares := totalShares - assignedShares
  let assignmentProceeds := assignedCalls.foldl (fun s c => s + c.strike * c.contracts * 100) 0
  let buyHoldValue : Option ℚ := mktPrice.map fun p => totalShares * p
  let buyHoldReturn : Option ℚ :=
    match buyHoldValue with
    | some v => if v = 0 then none else some (v - totalCost)
    | none => none
  let buyHoldPct : Option ℚ :=
    match buyHoldReturn with
    | some r => if totalCost = 0 then none else some (r / totalCost * 100)
    | none => none
  let ccValue : Option ℚ := mktPrice.map fun p => currentShares * p + assignmentProceeds + netPremium
  let ccReturn : Option ℚ :=
    match ccValue with
    | some v => if v = 0 then none else some (v - totalCost)
    | none => none
  let ccPct : Option ℚ :=
    match ccReturn with
    | some r => if totalCost = 0 then none else some (r / totalCost * 100)
    | none => none
  let alpha : Option ℚ :=
    match ccReturn, buyHoldReturn with
    | some a, some b => some (a - b)
    | _, _ => none
  let alphaPct : Option ℚ :=
    match ccPct, buyHoldPct with
    | some a, some b => some (a - b)
    | _, _ => none
  let earliestDate : Option String :=
    match ps.map Position.dateAcquired with
    | [] => none
    | h :: t => some (t.foldl (fun a b => if a.data < b.data then a else b) h)
  let daysHeld : Option Int :=
    match earliestDate with
    | some e => if e = "" then some 0 else daysBetween todayStr e todayStr
    | none => some 0
  let premiumYieldPct : ℚ := if 0 < totalCost then netPremium / totalCost * 100 else 0
  let premiumAnnualized : ℚ :=
    match daysHeld with
    | some dh => if 0 < dh then premiumYieldPct * (365 / (dh : ℚ)) else 0
    | none => 0
  { ticker := ticker, totalShares := totalShares, totalCost := totalCost, avgBasis := avgBasis
    mktPrice := mktPrice, grossPremium := grossPremium, netPremium := netPremium
    assignedShares := assignedShares, currentShares := currentShares
    assignmentProceeds := assignmentProceeds, buyHoldReturn := buyHoldReturn
    buyHoldPct := buyHoldPct, ccReturn := ccReturn, ccPct := ccPct
    alpha := alpha, alphaPct := alphaPct, daysHeld := daysHeld
    premiumYieldPct := premiumYieldPct, premiumAnnualized := premiumAnnualized }

/-- The spread [...new Set(xs)]: deduplication keeping first occurrences. -/
def dedupKeep (seen : List String) : List String → List String
  | [] => []
  | x :: t => if seen.contains x then dedupKeep seen t else x :: dedupKeep (x :: seen) t

def comparatorTickers (positions : List Position) : List String :=
  dedupKeep [] (positions.map fun p => jsToUpper p.ticker)

def comparisons (todayStr : String) (positions : List Position) (calls : List Call)
    (livePrices : List (String × ℚ)) : List Comparison :=
  (comparatorTickers positions).map (comparisonFor todayStr positions calls livePrices)

/-! ### Trade post-mortem (main.jsx lines 1692-1734) -/

structure PostMortem where
  gross : ℚ
  closeCost : ℚ
  net : ℚ
  held : Option Int
  premiumRetained : ℚ
  costBasis : Option ℚ
  annualizedReturn : Option ℚ
  verdict : String
  /-- Which narrative branch is selected (the narrative text itself is
  presentation); the assigned branches test costBasis for truthiness. -/
  insightClass : String

/-- getPostMortem.  The source divides by costBasis * contracts * 100 only
when costBasis is truthy and held > 0; for the positive contract counts of
the data model that denominator is nonzero. -/
def getPostMortem (todayStr : String) (positions : List Position) (c : Call) : PostMortem :=
  let gross := grossPrem c
  let closeCost := closeCostOf c
  let net := gross - closeCost
  let held := daysBetween todayStr c.dateOpened
    (if c.dateClosed = "" then c.expiration else c.dateClosed)
  let premiumRetained := if 0 < gross then net / gross * 100 else 0
  let costBasis : Option ℚ :=
    (positions.find? fun p => decide (jsToUpper p.ticker = jsToUpper c.ticker)).map
      Position.costBasis
  let annualizedReturn : Option ℚ :=
    match costBasis, held with
    | some b, some h =>
      if b ≠ 0 ∧ 0 < h then some (net / (b * c.contracts * 100) * (365 / (h : ℚ)) * 100)
      else none
    | _, _ => none
  let vi : String × String :=
    if c.status = CallStatus.expired then ("Full Win", "expiredFullWin")
    else if c.status = CallStatus.assigned then
      ("Assigned",
        match costBasis with
        | some b =>
          if b ≠ 0 then (if b ≤ c.strike then "assignedAboveBasis" else "assignedBelowBasis")
          else "assignedNoBasis"
        | none => "assignedNoBasis")
    else if c.status = CallStatus.closed then
      if 0 < net then ("Partial Win", "closedPartialWin") else ("Loss", "closedLoss")
    else ("", "")
  { gross := gross, closeCost := closeCost, net := net, held := held
    premiumRetained := premiumRetained, costBasis := costBasis
    annualizedReturn := annualizedReturn, verdict := vi.1, insightClass := vi.2 }

/-! ### Concrete records used by the witnesses and counterexamples -/

/-- A closed call: premium 2/share, 3 contracts, closed at 1/share, no overrides. -/
def wCall : Call :=
  { id := 1, ticker := "AAA", strike := 50, premium := 2, contracts := 3
    dateOpened := "2024-01-05", expiration := "2024-02-02", status := CallStatus.closed
    dateClosed := "2024-01-20", closePrice := some 1, totalPremium := none
    totalCloseCost := none }

/-- A closed call with explicit zero overrides on both total fields. -/
def zCall : Call :=
  { id := 2, ticker := "AAA", strike := 50, premium := 2, contracts := 3
    dateOpened := "2024-01-05", expiration := "2024-02-02", status := CallStatus.closed
    dateClosed := "2024-01-20", closePrice := some 1, totalPremium := some 0
    totalCloseCost := some 0 }

/-- An expired call carrying both a total-premium override (200) and a
total-close-cost override (50). -/
def cExpOverride : Call :=
  { id := 3, ticker := "AAA", strike := 50, premium := 2, contracts := 1
    dateOpened := "2024-01-05", expiration := "2024-02-02", status := CallStatus.expired
    dateClosed := "2024-02-02", closePrice := none, totalPremium := some 200
    totalCloseCost := some 50 }

/-! ### C1 - premium arithmetic honors overrides -/

/-- C1: for every Call, gross premium is the totalPremium override when
present, else premiumPerShare x contracts x 100; close cost is the
totalCloseCost override when present, else closePricePerShare x contracts
x 100 for a closed call and 0 for any other status; net = gross - close. -/
theorem premium_formulas (c : Call) :
    netPrem c = grossPrem c - closeCostOf c
    ∧ (∀ v, c.totalPremium = some v → grossPrem c = v)
    ∧ (c.totalPremium = none → grossPrem c = c.premium * c.contracts * 100)
    ∧ (∀ v, c.totalCloseCost = some v → closeCostOf c = v)
    ∧ (c.totalCloseCost = none → c.status = CallStatus.closed →
        ∀ p, c.closePrice = some p → closeCostOf c = p * c.contracts * 100)
    ∧ (c.totalCloseCost = none → c.status ≠ CallStatus.closed → closeCostOf c = 0) := by
  refine ⟨rfl, ?_, ?_, ?_, ?_, ?_⟩ <;> intros <;> simp_all [grossPrem, closeCostOf]

theorem premium_formulas_witness :
    wCall.totalPremium = none ∧ wCall.totalCloseCost = none
    ∧ wCall.status = CallStatus.closed ∧ wCall.closePrice = some 1
    ∧ grossPrem wCall = 600 ∧ closeCostOf wCall = 300 ∧ netPrem wCall = 300 := by
  have h := premium_formulas wCall
  refine ⟨rfl, rfl, rfl, rfl, ?_, ?_, ?_⟩
  · rw [h.2.2.1 rfl]; norm_num [wCall]
  · rw [h.2.2.2.2.1 rfl rfl 1 rfl]; norm_num [wCall]
  · rw [h.1, h.2.2.1 rfl, h.2.2.2.2.1 rfl rfl 1 rfl]; norm_num [wCall]

/-! ### C10 - an explicit zero override is honored -/

/-- C10: the override test is presence (not truthiness): a totalPremium
field equal to 0 makes the gross premium 0, and on a closed call a
totalCloseCost field equal to 0 makes the close cost 0. -/
theorem zero_override_honored (c : Call) :
    (c.totalPremium = some 0 → grossPrem c = 0)
    ∧ (c.status = CallStatus.closed → c.totalCloseCost = some 0 → closeCostOf c = 0) := by
  constructor
  · intro h; simp [grossPrem, h]
  · intro _ h; simp [closeCostOf, h]

theorem zero_override_honored_witness :
    zCall.totalPremium = some 0 ∧ zCall.status = CallStatus.closed
    ∧ zCall.totalCloseCost = some 0
    ∧ grossPrem zCall = 0 ∧ closeCostOf zCall = 0 := by
  have h := zero_override_honored zCall
  exact ⟨rfl, rfl, rfl, h.1 rfl, h.2 rfl rfl⟩

/-! ### C2 - total premium collected -/

/-- The total the claim asserts: net premium for every non-open call. -/
def claimTotalPremiumCollected (calls : List Call) : ℚ :=
  (calls.map fun c => if c.status = CallStatus.open_ then 0 else netPrem c).sum

/-- C2 counterexample: an expired call with a close-cost override
contributes its gross premium (200) to totalPremiumCollected, not its net
premium (150) as the claim states. -/
theorem total_premium_collected_cex :
    totalPremiumCollected [cExpOverride] = 200
    ∧ claimTotalPremiumCollected [cExpOverride] = 150 := by
  constructor <;>
    simp +decide [totalPremiumCollected, claimTotalPremiumCollected, netPrem, grossPrem,
      closeCostOf, cExpOverride]
  norm_num

/-- C2 amended: the snapshot total adds the net premium of closed calls,
nothing for open calls, and the gross premium of expired and assigned
calls - so a totalCloseCost override on an expired or assigned call is
ignored by this total. -/
theorem total_premium_collected_by_status (calls : List Call) :
    totalPremiumCollected calls =
      (calls.map fun c =>
        if c.status = CallStatus.closed then netPrem c
        else if c.status = CallStatus.open_ then 0
        else grossPrem c).sum := by
  suffices h : ∀ (l : List Call) (a : ℚ),
      l.foldl
        (fun sum c =>
          if c.status = CallStatus.closed then sum + grossPrem c - closeCostOf c
          else if c.status = CallStatus.open_ then sum
          else sum + grossPrem c) a =
      a + (l.map fun c =>
        if c.status = CallStatus.closed then netPrem c
        else if c.status = CallStatus.open_ then 0
        else grossPrem c).sum by
    simpa [totalPremiumCollected] using h calls 0
  intro l
  induction l with
  | nil => intro a; simp
  | cons c t ih =>
    intro a
    rcases hs : c.status <;> simp [hs, ih, netPrem] <;> ring

/-! ### C5 - skipping of unkeyable records in the time series -/

/-- An expired call whose close-date string is 7 characters of junk. -/
def cGarbageDate : Call :=
  { id := 4, ticker := "AAA", strike := 50, premium := 0, contracts := 1
    dateOpened := "2024-01-05", expiration := "2024-02-02", status := CallStatus.expired
    dateClosed := "garbage", closePrice := none, totalPremium := some 5
    totalCloseCost := none }

/-- An expired call whose close-date string is 3 characters of junk. -/
def cShortDate : Call :=
  { id := 5, ticker := "AAA", strike := 50, premium := 0, contracts := 1
    dateOpened := "2024-01-05", expiration := "2024-02-02", status := CallStatus.expired
    dateClosed := "abc", closePrice := none, totalPremium := some 5
    totalCloseCost := none }

theorem foldl_skip_mid {α β : Type} (f : β → α → β) (init : β) (l1 l2 : List α) (x : α)
    (hx : ∀ b, f b x = b) :
    (l1 ++ x :: l2).foldl f init = (l1 ++ l2).foldl f init := by
  simp [List.foldl_append, List.foldl_cons, hx]

theorem week_buckets_skip (l1 l2 : List Call) (c : Call)
    (hst : c.status ≠ CallStatus.open_) (hk : weekKey (keyStrOf c) = none) :
    weekBuckets (l1 ++ c :: l2) = weekBuckets (l1 ++ l2) := by
  unfold weekBuckets
  rw [List.filter_append, List.filter_append, List.filter_cons_of_pos (by simpa using hst)]
  exact foldl_skip_mid _ _ _ _ c fun b => by simp [hk]

theorem month_buckets_skip (l1 l2 : List Call) (c : Call)
    (hst : c.status ≠ CallStatus.open_) (hk : monthKey (keyStrOf c) = none) :
    monthBuckets (l1 ++ c :: l2) = monthBuckets (l1 ++ l2) := by
  unfold monthBuckets
  rw [List.filter_append, List.filter_append, List.filter_cons_of_pos (by simpa using hst)]
  exact foldl_skip_mid _ _ _ _ c fun b => by simp [hk]

/-- C5 counterexample: "garbage" is not parseable as a calendar date, yet
the monthly bucketing does not skip the non-open call keyed by it - the
call forms its own "garbage" bucket, because the monthly skip test only
rejects keys shorter than 7 characters. -/
theorem month_bucket_cex :
    parseYMD "garbage" = none
    ∧ cGarbageDate.status ≠ CallStatus.open_
    ∧ premiumByMonth [cGarbageDate] = [⟨"garbage", 5, 5⟩] := by
  refine ⟨by decide, by decide, ?_⟩
  simp +decide [premiumByMonth, monthBuckets, monthKey, keyStrOf, cGarbageDate, strTake,
    sortByKey, insertByKey, upsert, cumSeries, roundCents, netPrem, grossPrem, closeCostOf]
  norm_num

theorem splitDash_ne_nil (l : List Char) : splitDash l ≠ [] := by
  induction l with
  | nil => simp [splitDash]
  | cons c t ih =>
    simp only [splitDash]
    by_cases hc : c = '-'
    · simp [hc]
    · simp only [hc, if_false]
      rcases h : splitDash t with _ | ⟨a, b⟩ <;> simp

theorem mem_upsert_keys (l : List (String × ℚ)) (k : String) (v : ℚ) :
    k ∈ (upsert l k v).map Prod.fst := by
  induction l with
  | nil => simp [upsert]
  | cons h t ih =>
    rcases h with ⟨k0, v0⟩
    simp only [upsert]
    by_cases hk : k0 = k
    · simp [hk]
    · simp [hk, ih]

theorem mem_upsert_keys_of_mem (l : List (String × ℚ)) (k k' : String) (v : ℚ)
    (h : k ∈ l.map Prod.fst) : k ∈ (upsert l k' v).map Prod.fst := by
  induction l with
  | nil => simp at h
  | cons h0 t ih =>
    rcases h0 with ⟨k0, v0⟩
    rw [List.map_cons, List.mem_cons] at h
    simp only [upsert]
    by_cases hk : k0 = k'
    · rw [if_pos hk, List.map_cons, List.mem_cons]
      exact h
    · rw [if_neg hk, List.map_cons, List.mem_cons]
      rcases h with he | ht
      · exact Or.inl he
      · exact Or.inr (ih ht)

theorem foldl_buckets_mem (keyOf : Call → Option String) (l : List Call)
    (acc : List (String × ℚ)) (k : String) (h : k ∈ acc.map Prod.fst) :
    k ∈ (l.foldl
      (fun a c =>
        match keyOf c with
        | none => a
        | some k2 => upsert a k2 (netPrem c)) acc).map Prod.fst := by
  induction l generalizing acc with
  | nil => exact h
  | cons c t ih =>
    simp only [List.foldl_cons]
    apply ih
    rcases hkc : keyOf c with _ | k2
    · simpa [hkc] using h
    · simp only [hkc]
      exact mem_upsert_keys_of_mem _ _ _ _ h

theorem week_buckets_mem (l1 l2 : List Call) (c : Call) (k : String)
    (hst : c.status ≠ CallStatus.open_) (hk : weekKey (keyStrOf c) = some k) :
    k ∈ (weekBuckets (l1 ++ c :: l2)).map Prod.fst := by
  unfold weekBuckets
  rw [List.filter_append, List.filter_cons_of_pos (by simpa using hst), List.foldl_append,
    List.foldl_cons]
  apply foldl_buckets_mem fun c => weekKey (keyStrOf c)
  simp only [hk]
  exact mem_upsert_keys _ _ _

theorem month_buckets_mem (l1 l2 : List Call) (c : Call) (k : String)
    (hst : c.status ≠ CallStatus.open_) (hk : monthKey (keyStrOf c) = some k) :
    k ∈ (monthBuckets (l1 ++ c :: l2)).map Prod.fst := by
  unfold monthBuckets
  rw [List.filter_append, List.filter_cons_of_pos (by simpa using hst), List.foldl_append,
    List.foldl_cons]
  apply foldl_buckets_mem fun c => monthKey (keyStrOf c)
  simp only [hk]
  exact mem_upsert_keys _ _ _

theorem strTake7_length (s : String) : (strTake 7 s).length < 7 ↔ s.length < 7 := by
  show (List.take 7 s.data).length < 7 ↔ s.data.length < 7
  rw [List.length_take]
  omega

/-- C5 amended: the weekly bucketing skips a non-open call exactly when
the source's own test does - Number of the leading dash-field of the
keying string is falsy (NaN or 0) - and the monthly bucketing skips one
exactly when its keying string is shorter than 7 characters.  A skipped
call contributes to no bucket and nothing errors; a non-skipped call is
keyed into a bucket, even when its string is not a parseable calendar
date (see the counterexample). -/
theorem bucket_skip_conditions (l1 l2 : List Call) (c : Call)
    (hst : c.status ≠ CallStatus.open_) :
    (jsFalsy (jsNumber ((splitOnDashS (keyStrOf c)).headI)) = true →
      premiumByWeek (l1 ++ c :: l2) = premiumByWeek (l1 ++ l2))
    ∧ (jsFalsy (jsNumber ((splitOnDashS (keyStrOf c)).headI)) = false →
      ∃ k, weekKey (keyStrOf c) = some k ∧
        k ∈ (weekBuckets (l1 ++ c :: l2)).map Prod.fst)
    ∧ ((keyStrOf c).length < 7 →
      premiumByMonth (l1 ++ c :: l2) = premiumByMonth (l1 ++ l2))
    ∧ (¬ (keyStrOf c).length < 7 →
      monthKey (keyStrOf c) = some (strTake 7 (keyStrOf c)) ∧
        strTake 7 (keyStrOf c) ∈ (monthBuckets (l1 ++ c :: l2)).map Prod.fst) := by
  have hsne : splitOnDashS (keyStrOf c) ≠ [] := by
    unfold splitOnDashS
    simp [splitDash_ne_nil]
  rcases hL : splitOnDashS (keyStrOf c) with _ | ⟨s0, srest⟩
  · exact absurd hL hsne
  refine ⟨?_, ?_, ?_, ?_⟩
  · intro h
    have h0 : jsFalsy (jsNumber s0) = true := h
    have hk : weekKey (keyStrOf c) = none := by
      unfold weekKey
      rw [hL]
      simp [h0]
    unfold premiumByWeek
    rw [week_buckets_skip l1 l2 c hst hk]
  · intro h
    have h0 : jsFalsy (jsNumber s0) = false := h
    have hk : ∃ k, weekKey (keyStrOf c) = some k := by
      unfold weekKey
      rw [hL]
      simp only [List.map_cons]
      rw [if_neg (by simp [h0])]
      rcases srest.map jsNumber with _ | ⟨mn, rest2⟩
      · exact ⟨_, rfl⟩
      · rcases rest2 with _ | ⟨dn, rest3⟩ <;> exact ⟨_, rfl⟩
    obtain ⟨k, hk⟩ := hk
    exact ⟨k, hk, week_buckets_mem l1 l2 c k hst hk⟩
  · intro h
    have hk : monthKey (keyStrOf c) = none := by
      unfold monthKey
      simp [(strTake7_length (keyStrOf c)).mpr h]
    unfold premiumByMonth
    rw [month_buckets_skip l1 l2 c hst hk]
  · intro h
    have hk : monthKey (keyStrOf c) = some (strTake 7 (keyStrOf c)) := by
      unfold monthKey
      simp [(strTake7_length (keyStrOf c)).not.mpr h]
    exact ⟨hk, month_buckets_mem l1 l2 c _ hst hk⟩

/-- An expired call whose close-date string " 5-01-02" has a leading field
JavaScript parses as the truthy number 5. -/
def cSpaceDate : Call :=
  { id := 19, ticker := "AAA", strike := 50, premium := 0, contracts := 1
    dateOpened := "2024-01-05", expiration := "2024-02-02", status := CallStatus.expired
    dateClosed := " 5-01-02", closePrice := none, totalPremium := some 5
    totalCloseCost := none }

theorem bucket_skip_conditions_witness :
    jsFalsy (jsNumber ((splitOnDashS (keyStrOf cShortDate)).headI)) = true
    ∧ premiumByWeek [cShortDate] = premiumByWeek []
    ∧ premiumByMonth [cShortDate] = premiumByMonth []
    ∧ jsFalsy (jsNumber ((splitOnDashS (keyStrOf cSpaceDate)).headI)) = false
    ∧ (∃ k, weekKey (keyStrOf cSpaceDate) = some k ∧
        k ∈ (weekBuckets [cSpaceDate]).map Prod.fst)
    ∧ monthKey (keyStrOf cGarbageDate) = some "garbage"
    ∧ "garbage" ∈ (monthBuckets [cGarbageDate]).map Prod.fst := by
  have h1 := bucket_skip_conditions [] [] cShortDate (by decide)
  have h2 := bucket_skip_conditions [] [] cSpaceDate (by decide)
  have h3 := bucket_skip_conditions [] [] cGarbageDate (by decide)
  have h3m := h3.2.2.2 (by decide)
  refine ⟨by decide, h1.1 (by decide), h1.2.2.1 (by decide), by decide,
    h2.2.1 (by decide), ?_, ?_⟩
  · rw [h3m.1]; decide
  · have h4 := h3m.2
    rwa [show strTake 7 (keyStrOf cGarbageDate) = "garbage" by decide] at h4

/-! ### C6 - wash-sale risk flag -/

theorem optAbsLE_eq_true (o : Option Int) (k : Int) :
    optAbsLE o k = true ↔ ∃ v, o = some v ∧ |v| ≤ k := by
  cases o <;> simp [optAbsLE]

/-- C6: for a non-open call, washSaleRisk holds iff its net premium is
negative and some other call of the snapshot has the same ticker and an
open date within 30 days (either direction) of this call's close date,
today standing in for a missing close date. -/
theorem wash_sale_flag (todayStr : String) (calls : List Call) (c : Call)
    (_hst : c.status ≠ CallStatus.open_) :
    (mkTaxRow todayStr calls c).washSaleRisk = true ↔
      netPrem c < 0 ∧ ∃ o ∈ calls, o.id ≠ c.id ∧ o.ticker = c.ticker ∧
        ∃ k, daysBetween todayStr (if c.dateClosed = "" then todayStr else c.dateClosed)
            o.dateOpened = some k ∧ |k| ≤ 30 := by
  simp only [mkTaxRow, Bool.and_eq_true, decide_eq_true_eq, List.length_pos_iff_exists_mem,
    List.mem_filter, optAbsLE_eq_true]
  constructor
  · rintro ⟨hneg, o, hmem, ⟨hid, ht⟩, v, hdb, habs⟩
    exact ⟨hneg, o, hmem, hid, ht, v, hdb, habs⟩
  · rintro ⟨hneg, o, hmem, hid, ht, v, hdb, habs⟩
    exact ⟨hneg, o, hmem, ⟨hid, ht⟩, v, hdb, habs⟩

/-- The claim's scenario call A: same-ticker loss closed 2024-01-10. -/
def cWashA : Call :=
  { id := 8, ticker := "T", strike := 50, premium := 0, contracts := 1
    dateOpened := "2024-01-02", expiration := "2024-01-19", status := CallStatus.closed
    dateClosed := "2024-01-10", closePrice := some (1 / 2), totalPremium := none
    totalCloseCost := none }

/-- The claim's scenario call B: same ticker, opened 2024-01-25. -/
def cWashB : Call :=
  { id := 9, ticker := "T", strike := 50, premium := 1, contracts := 1
    dateOpened := "2024-01-25", expiration := "2024-02-16", status := CallStatus.open_
    dateClosed := "", closePrice := none, totalPremium := none
    totalCloseCost := none }

/-- The claim's scenario call B opened 2024-03-01 instead. -/
def cWashB2 : Call :=
  { id := 9, ticker := "T", strike := 50, premium := 1, contracts := 1
    dateOpened := "2024-03-01", expiration := "2024-03-15", status := CallStatus.open_
    dateClosed := "", closePrice := none, totalPremium := none
    totalCloseCost := none }

theorem wash_sale_flag_witness :
    (mkTaxRow "2024-06-01" [cWashA, cWashB] cWashA).washSaleRisk = true
    ∧ (mkTaxRow "2024-06-01" [cWashA, cWashB2] cWashA).washSaleRisk = false := by
  constructor
  · rw [wash_sale_flag "2024-06-01" [cWashA, cWashB] cWashA (by decide)]
    refine ⟨?_, cWashB, by simp, by decide, by decide, 15, by decide, by decide⟩
    norm_num [netPrem, grossPrem, closeCostOf, cWashA]
  · rw [Bool.eq_false_iff, Ne, wash_sale_flag "2024-06-01" [cWashA, cWashB2] cWashA (by decide)]
    rintro ⟨-, o, hmem, hid, -, k, hdb, habs⟩
    rcases List.mem_cons.mp hmem with h | hmem2
    · subst h; exact hid rfl
    rcases List.mem_cons.mp hmem2 with h | h
    · subst h
      rw [show daysBetween "2024-06-01"
          (if cWashA.dateClosed = "" then "2024-06-01" else cWashA.dateClosed)
          cWashB2.dateOpened = some 51 by decide] at hdb
      cases hdb
      revert habs; decide
    · cases h

/-! ### C7 - holding period and short/long-term boundary -/

/-- A call opened 2023-01-01 and closed exactly 365 days later. -/
def cHeld365 : Call :=
  { id := 10, ticker := "AAA", strike := 50, premium := 1, contracts := 1
    dateOpened := "2023-01-01", expiration := "2024-01-19", status := CallStatus.closed
    dateClosed := "2024-01-01", closePrice := some 0, totalPremium := none
    totalCloseCost := none }

/-- A call opened 2023-01-01 and closed 366 days later. -/
def cHeld366 : Call :=
  { id := 11, ticker := "AAA", strike := 50, premium := 1, contracts := 1
    dateOpened := "2023-01-01", expiration := "2024-01-19", status := CallStatus.closed
    dateClosed := "2024-01-02", closePrice := some 0, totalPremium := none
    totalCloseCost := none }

theorem mkTaxRow_treatment (todayStr : String) (calls : List Call) (c : Call) :
    (mkTaxRow todayStr calls c).treatment =
      if optGT (mkTaxRow todayStr calls c).held 365 then "Long-term" else "Short-term" := by
  simp [mkTaxRow]

/-- C7: for a non-open call whose open date parses as o and whose close
date (today when absent) parses as k, the tax row's holding period is the
whole-calendar-day difference of the two dates, and the treatment is
Long-term exactly when that difference exceeds 365 days, Short-term when
it is at most 365 days. -/
theorem tax_holding_period (todayStr : String) (calls : List Call) (c : Call)
    (_hst : c.status ≠ CallStatus.open_) (o k : YMD)
    (ho : parseYMD c.dateOpened = some o)
    (hk : parseYMD (if c.dateClosed = "" then todayStr else c.dateClosed) = some k) :
    (mkTaxRow todayStr calls c).held = some (civilRD k - civilRD o)
    ∧ ((mkTaxRow todayStr calls c).treatment = "Long-term" ↔ 365 < civilRD k - civilRD o)
    ∧ ((mkTaxRow todayStr calls c).treatment = "Short-term" ↔ civilRD k - civilRD o ≤ 365) := by
  have hnone : parseYMD "" = none := by decide
  have hop : c.dateOpened ≠ "" := by
    intro he; rw [he, hnone] at ho; cases ho
  have hheld : (mkTaxRow todayStr calls c).held = some (civilRD k - civilRD o) := by
    by_cases he : (if c.dateClosed = "" then todayStr else c.dateClosed) = ""
    · rw [he, hnone] at hk; cases hk
    · simp [mkTaxRow, daysBetween, parseLocalDate, hop, he, ho, hk]
  have htr : (mkTaxRow todayStr calls c).treatment =
      if 365 < civilRD k - civilRD o then "Long-term" else "Short-term" := by
    rw [mkTaxRow_treatment, hheld]
    simp [optGT]
  refine ⟨hheld, ?_, ?_⟩
  · rcases lt_or_le 365 (civilRD k - civilRD o) with hlt | hle
    · rw [htr, if_pos hlt]
      exact iff_of_true rfl hlt
    · rw [htr, if_neg (not_lt.mpr hle)]
      exact iff_of_false (by decide) (not_lt.mpr hle)
  · rcases lt_or_le 365 (civilRD k - civilRD o) with hlt | hle
    · rw [htr, if_pos hlt]
      exact iff_of_false (by decide) (not_le.mpr hlt)
    · rw [htr, if_neg (not_lt.mpr hle)]
      exact iff_of_true rfl hle

theorem tax_holding_period_witness :
    (mkTaxRow "2024-06-01" [cHeld365] cHeld365).held = some 365
    ∧ (mkTaxRow "2024-06-01" [cHeld365] cHeld365).treatment = "Short-term"
    ∧ (mkTaxRow "2024-06-01" [cHeld366] cHeld366).held = some 366
    ∧ (mkTaxRow "2024-06-01" [cHeld366] cHeld366).treatment = "Long-term" := by
  have h365 := tax_holding_period "2024-06-01" [cHeld365] cHeld365 (by decide)
    ⟨2023, 1, 1⟩ ⟨2024, 1, 1⟩ (by decide) (by decide)
  have h366 := tax_holding_period "2024-06-01" [cHeld366] cHeld366 (by decide)
    ⟨2023, 1, 1⟩ ⟨2024, 1, 2⟩ (by decide) (by decide)
  refine ⟨?_, ?_, ?_, ?_⟩
  · rw [h365.1]; decide
  · exact h365.2.2.mpr (by decide)
  · rw [h366.1]; decide
  · exact h366.2.1.mpr (by decide)

/-! ### C8 - annualized yield on deployed capital -/

/-- The claim's example position: 10000 of capital deployed. -/
def pYield : Position :=
  { ticker := "T", shares := 100, costBasis := 100, dateAcquired := "2024-01-01" }

/-- The claim's example call: 1000 of premium collected, opened 73 days
before the ambient date 2024-03-14. -/
def cYield : Call :=
  { id := 12, ticker := "T", strike := 50, premium := 10, contracts := 1
    dateOpened := "2024-01-01", expiration := "2024-02-16", status := CallStatus.expired
    dateClosed := "2024-02-16", closePrice := none, totalPremium := some 1000
    totalCloseCost := none }

/-- C8: the annualized yield is 0 when capital deployed is 0, when no call
has an open date, or when the days since the earliest open date are at
most 0; otherwise it is (totalPremiumCollected / totalCapitalDeployed) x
(365 / daysSinceEarliest). -/
theorem annualized_yield_cases (todayStr : String) (positions : List Position)
    (calls : List Call) :
    (totalCapitalDeployed positions = 0 → annualizedYield todayStr positions calls = some 0)
    ∧ (earliestOpenDate calls = none → annualizedYield todayStr positions calls = some 0)
    ∧ (∀ first ds, earliestOpenDate calls = some first →
        daysBetween todayStr first todayStr = some ds →
        (ds ≤ 0 → annualizedYield todayStr positions calls = some 0)
        ∧ (0 < ds → totalCapitalDeployed positions ≠ 0 →
          annualizedYield todayStr positions calls =
            some (totalPremiumCollected calls / totalCapitalDeployed positions *
              (365 / (ds : ℚ))))) := by
  refine ⟨?_, ?_, ?_⟩
  · intro h; simp [annualizedYield, h]
  · intro h
    by_cases hc : totalCapitalDeployed positions = 0
    · simp [annualizedYield, hc]
    · simp [annualizedYield, hc, h]
  · intro first ds hfst hdb
    constructor
    · intro hds
      by_cases hc : totalCapitalDeployed positions = 0
      · simp [annualizedYield, hc]
      · simp [annualizedYield, hc, hfst, hdb, hds]
    · intro hds hc
      have hn : ¬ ds ≤ 0 := not_le.mpr hds
      simp [annualizedYield, hc, hfst, hdb, hn]

theorem annualized_yield_cases_witness :
    annualizedYield "2024-03-14" [pYield] [cYield] = some (1 / 2) := by
  have h := (annualized_yield_cases "2024-03-14" [pYield] [cYield]).2.2 "2024-01-01" 73
    (by decide) (by decide)
  have hcap : totalCapitalDeployed [pYield] = 10000 := by
    norm_num [totalCapitalDeployed, pYield]
  have hprem : totalPremiumCollected [cYield] = 1000 := by
    simp +decide [totalPremiumCollected, grossPrem, cYield]
  rw [h.2 (by decide) (by rw [hcap]; norm_num), hcap, hprem]
  norm_num

/-! ### C3 and C4 - strategy comparator -/

theorem aux_ret_none (x cost : ℚ) :
    (if x = 0 then none else some (x - cost) : Option ℚ) = none ↔ x = 0 := by
  by_cases h : x = 0 <;> simp [h]

theorem aux_alpha_none (a b : Option ℚ) :
    (match a, b with | some x, some y => some (x - y) | _, _ => (none : Option ℚ)) = none ↔
      a = none ∨ b = none := by
  cases a <;> cases b <;> simp

/-- The position backing the comparator scenarios: 100 shares at 50. -/
def pCex : Position :=
  { ticker := "T", shares := 100, costBasis := 50, dateAcquired := "2024-01-01" }

/-- An assigned call at strike 10 with zero premium. -/
def cAsg : Call :=
  { id := 13, ticker := "T", strike := 10, premium := 0, contracts := 1
    dateOpened := "2024-01-05", expiration := "2024-02-02", status := CallStatus.assigned
    dateClosed := "2024-02-02", closePrice := none, totalPremium := none
    totalCloseCost := none }

/-- A closed call bought back at 11/share against 1/share collected. -/
def cCls : Call :=
  { id := 14, ticker := "T", strike := 55, premium := 1, contracts := 1
    dateOpened := "2024-01-05", expiration := "2024-03-15", status := CallStatus.closed
    dateClosed := "2024-02-10", closePrice := some 11, totalPremium := none
    totalCloseCost := none }

/-- C3 counterexample: the market price of "T" is known (60), buy-and-hold
return is defined, yet the covered-call return and alpha are null, because
the covered-call value (0 shares x 60 + 1000 of proceeds - 1000 of net
premium) is 0 and the source tests that value for truthiness. -/
theorem comparator_nullness_cex :
    (comparisonFor "2024-06-01" [pCex] [cAsg, cCls] [("T", 60)] "T").mktPrice = some 60
    ∧ (comparisonFor "2024-06-01" [pCex] [cAsg, cCls] [("T", 60)] "T").buyHoldReturn =
        some 1000
    ∧ (comparisonFor "2024-06-01" [pCex] [cAsg, cCls] [("T", 60)] "T").ccReturn = none
    ∧ (comparisonFor "2024-06-01" [pCex] [cAsg, cCls] [("T", 60)] "T").alpha = none := by
  refine ⟨?_, ?_, ?_, ?_⟩ <;>
    simp +decide [comparisonFor, priceLookup, jsToUpper, pCex, cAsg, cCls, grossPrem,
      closeCostOf] <;> norm_num

/-- C3 amended: a return is null exactly when the market price is absent
from the price map (whose prices are nonzero) or when the corresponding
value - totalShares x price for buy-and-hold, currentShares x price +
assignmentProceeds + netPremium for the covered-call strategy - is zero;
alpha is defined iff both returns are. -/
theorem comparator_nullness (todayStr : String) (positions : List Position) (calls : List Call)
    (livePrices : List (String × ℚ)) (ticker : String)
    (hpos : ∀ kv ∈ livePrices, kv.2 ≠ 0) :
    ((comparisonFor todayStr positions calls livePrices ticker).mktPrice = none ↔
      priceLookup livePrices ticker = none)
    ∧ ((comparisonFor todayStr positions calls livePrices ticker).buyHoldReturn = none ↔
        (comparisonFor todayStr positions calls livePrices ticker).mktPrice = none ∨
        ∃ p, (comparisonFor todayStr positions calls livePrices ticker).mktPrice = some p ∧
          (comparisonFor todayStr positions calls livePrices ticker).totalShares * p = 0)
    ∧ ((comparisonFor todayStr positions calls livePrices ticker).ccReturn = none ↔
        (comparisonFor todayStr positions calls livePrices ticker).mktPrice = none ∨
        ∃ p, (comparisonFor todayStr positions calls livePrices ticker).mktPrice = some p ∧
          (comparisonFor todayStr positions calls livePrices ticker).currentShares * p +
            (comparisonFor todayStr positions calls livePrices ticker).assignmentProceeds +
            (comparisonFor todayStr positions calls livePrices ticker).netPremium = 0)
    ∧ ((comparisonFor todayStr positions calls livePrices ticker).alpha = none ↔
        (comparisonFor todayStr positions calls livePrices ticker).buyHoldReturn = none ∨
        (comparisonFor todayStr positions calls livePrices ticker).ccReturn = none) := by
  rcases hP : priceLookup livePrices ticker with _ | v
  · simp [comparisonFor, hP]
  · have hv : v ≠ 0 := by
      unfold priceLookup at hP
      rcases hf : livePrices.find? (fun kv => decide (kv.1 = ticker)) with _ | kv
      · rw [hf] at hP; cases hP
      · rw [hf] at hP
        simp at hP
        have hne := hpos kv (List.mem_of_find?_eq_some hf)
        rw [hP] at hne; exact hne
    simp [comparisonFor, hP, hv, aux_ret_none, aux_alpha_none]
    tauto

theorem comparator_nullness_witness :
    (∀ kv ∈ [(("T" : String), (60 : ℚ))], kv.2 ≠ 0)
    ∧ ((comparisonFor "2024-06-01" [pCex] [] [(("T" : String), (60 : ℚ))] "T").alpha = none ↔
        (comparisonFor "2024-06-01" [pCex] [] [(("T" : String), (60 : ℚ))] "T").buyHoldReturn =
          none ∨
        (comparisonFor "2024-06-01" [pCex] [] [(("T" : String), (60 : ℚ))] "T").ccReturn =
          none) := by
  have hpos : ∀ kv ∈ [(("T" : String), (60 : ℚ))], kv.2 ≠ 0 := by
    intro kv hkv
    rcases List.mem_singleton.mp hkv with h
    rw [h]; norm_num
  exact ⟨hpos,
    (comparator_nullness "2024-06-01" [pCex] [] [(("T" : String), (60 : ℚ))] "T" hpos).2.2.2⟩

/-- A position of 200 shares at 50 in "U". -/
def pCex2 : Position :=
  { ticker := "U", shares := 200, costBasis := 50, dateAcquired := "2024-01-01" }

/-- An assigned call on "U" at strike 10 with zero premium. -/
def cAsg2 : Call :=
  { id := 15, ticker := "U", strike := 10, premium := 0, contracts := 1
    dateOpened := "2024-01-05", expiration := "2024-02-02", status := CallStatus.assigned
    dateClosed := "2024-02-02", closePrice := none, totalPremium := none
    totalCloseCost := none }

/-- A closed call on "U" bought back at 70/share for zero premium. -/
def cCls2 : Call :=
  { id := 16, ticker := "U", strike := 55, premium := 0, contracts := 1
    dateOpened := "2024-01-05", expiration := "2024-03-15", status := CallStatus.closed
    dateClosed := "2024-02-10", closePrice := some 70, totalPremium := none
    totalCloseCost := none }

/-- C4 counterexample: the market price of "U" is known (60), and the
claimed formula gives 100 x 60 + 1000 - 7000 - 10000 = -10000 for the
covered-call return, but the source computes null, because the covered-call
value is 0 and fails its truthiness test. -/
theorem comparator_returns_cex :
    (comparisonFor "2024-06-01" [pCex2] [cAsg2, cCls2] [("U", 60)] "U").mktPrice = some 60
    ∧ (comparisonFor "2024-06-01" [pCex2] [cAsg2, cCls2] [("U", 60)] "U").currentShares * 60 +
        (comparisonFor "2024-06-01" [pCex2] [cAsg2, cCls2] [("U", 60)] "U").assignmentProceeds +
        (comparisonFor "2024-06-01" [pCex2] [cAsg2, cCls2] [("U", 60)] "U").netPremium -
        (comparisonFor "2024-06-01" [pCex2] [cAsg2, cCls2] [("U", 60)] "U").totalCost = -10000
    ∧ (comparisonFor "2024-06-01" [pCex2] [cAsg2, cCls2] [("U", 60)] "U").ccReturn = none := by
  refine ⟨?_, ?_, ?_⟩ <;>
    simp +decide [comparisonFor, priceLookup, jsToUpper, pCex2, cAsg2, cCls2, grossPrem,
      closeCostOf] <;> norm_num

/-- C4 amended: for a ticker whose market price p is known, and whose
buy-and-hold value (totalShares x p) and covered-call value
(currentShares x p + assignmentProceeds + netPremium) are nonzero, the
comparator computes buyHoldReturn = totalShares x p - totalCost, ccReturn
= currentShares x p + assignmentProceeds + netPremium - totalCost, and
alpha as their difference. -/
theorem comparator_returns (todayStr : String) (positions : List Position) (calls : List Call)
    (livePrices : List (String × ℚ)) (ticker : String) (p : ℚ)
    (hp : (comparisonFor todayStr positions calls livePrices ticker).mktPrice = some p)
    (hbv : (comparisonFor todayStr positions calls livePrices ticker).totalShares * p ≠ 0)
    (hcv : (comparisonFor todayStr positions calls livePrices ticker).currentShares * p +
        (comparisonFor todayStr positions calls livePrices ticker).assignmentProceeds +
        (comparisonFor todayStr positions calls livePrices ticker).netPremium ≠ 0) :
    (comparisonFor todayStr positions calls livePrices ticker).buyHoldReturn =
      some ((comparisonFor todayStr positions calls livePrices ticker).totalShares * p -
        (comparisonFor todayStr positions calls livePrices ticker).totalCost)
    ∧ (comparisonFor todayStr positions calls livePrices ticker).ccReturn =
      some ((comparisonFor todayStr positions calls livePrices ticker).currentShares * p +
        (comparisonFor todayStr positions calls livePrices ticker).assignmentProceeds +
        (comparisonFor todayStr positions calls livePrices ticker).netPremium -
        (comparisonFor todayStr positions calls livePrices ticker).totalCost)
    ∧ (comparisonFor todayStr positions calls livePrices ticker).alpha =
      some ((comparisonFor todayStr positions calls livePrices ticker).currentShares * p +
        (comparisonFor todayStr positions calls livePrices ticker).assignmentProceeds +
        (comparisonFor todayStr positions calls livePrices ticker).netPremium -
        (comparisonFor todayStr positions calls livePrices ticker).totalShares * p) := by
  rcases hP : priceLookup livePrices ticker with _ | v
  · rw [show (comparisonFor todayStr positions calls livePrices ticker).mktPrice = none by
      simp [comparisonFor, hP]] at hp
    cases hp
  · by_cases hv : v = 0
    · subst hv
      rw [show (comparisonFor todayStr positions calls livePrices ticker).mktPrice = none by
        simp [comparisonFor, hP]] at hp
      cases hp
    · have hvp : v = p := by
        rw [show (comparisonFor todayStr positions calls livePrices ticker).mktPrice = some v by
          simp [comparisonFor, hP, hv]] at hp
        exact Option.some.inj hp
      subst hvp
      simp [comparisonFor, hP, hv] at hbv hcv
      refine ⟨?_, ?_, ?_⟩ <;> simp [comparisonFor, hP, hv, hbv, hcv]

/-- The claim's worked example: 100 shares of "W" at 50, one expired call
collecting 300, market price 60. -/
def pW : Position :=
  { ticker := "W", shares := 100, costBasis := 50, dateAcquired := "2024-01-01" }

def cW : Call :=
  { id := 17, ticker := "W", strike := 55, premium := 3, contracts := 1
    dateOpened := "2024-01-05", expiration := "2024-02-16", status := CallStatus.expired
    dateClosed := "2024-02-16", closePrice := none, totalPremium := none
    totalCloseCost := none }

theorem comparator_returns_witness :
    (comparisonFor "2024-06-01" [pW] [cW] [("W", 60)] "W").buyHoldReturn = some 1000
    ∧ (comparisonFor "2024-06-01" [pW] [cW] [("W", 60)] "W").ccReturn = some 1300
    ∧ (comparisonFor "2024-06-01" [pW] [cW] [("W", 60)] "W").alpha = some 300 := by
  have hS : (comparisonFor "2024-06-01" [pW] [cW] [("W", 60)] "W").totalShares = 100 := by
    simp +decide [comparisonFor, jsToUpper, pW]
  have hC : (comparisonFor "2024-06-01" [pW] [cW] [("W", 60)] "W").totalCost = 5000 := by
    simp +decide [comparisonFor, jsToUpper, pW]; norm_num
  have hcur : (comparisonFor "2024-06-01" [pW] [cW] [("W", 60)] "W").currentShares = 100 := by
    simp +decide [comparisonFor, jsToUpper, pW, cW]
  have hap : (comparisonFor "2024-06-01" [pW] [cW] [("W", 60)] "W").assignmentProceeds = 0 := by
    simp +decide [comparisonFor, jsToUpper, pW, cW]
  have hnp : (comparisonFor "2024-06-01" [pW] [cW] [("W", 60)] "W").netPremium = 300 := by
    simp +decide [comparisonFor, jsToUpper, pW, cW, grossPrem, closeCostOf]; norm_num
  have hp : (comparisonFor "2024-06-01" [pW] [cW] [("W", 60)] "W").mktPrice = some 60 := by
    simp +decide [comparisonFor, priceLookup]
  have h := comparator_returns "2024-06-01" [pW] [cW] [("W", 60)] "W" 60 hp
    (by rw [hS]; norm_num) (by rw [hcur, hap, hnp]; norm_num)
  refine ⟨?_, ?_, ?_⟩
  · rw [h.1, hS, hC]; norm_num
  · rw [h.2.1, hcur, hap, hnp, hC]; norm_num
  · rw [h.2.2, hcur, hap, hnp, hS]; norm_num

/-! ### C9 - trade post-mortem verdict -/

/-- The claim's scenario position: 100 XYZ at 50. -/
def pXYZ : Position :=
  { ticker := "XYZ", shares := 100, costBasis := 50, dateAcquired := "2024-01-01" }

/-- The claim's scenario call: XYZ 55 strike, premium 2, expired. -/
def cXYZ : Call :=
  { id := 18, ticker := "XYZ", strike := 55, premium := 2, contracts := 1
    dateOpened := "2024-01-05", expiration := "2024-02-02", status := CallStatus.expired
    dateClosed := "", closePrice := none, totalPremium := none
    totalCloseCost := none }

/-- A position in "Z" whose cost basis is the known value 0. -/
def pZeroBasis : Position :=
  { ticker := "Z", shares := 100, costBasis := 0, dateAcquired := "2024-01-01" }

/-- An assigned call on "Z" at strike 55. -/
def cAsgZ : Call :=
  { id := 20, ticker := "Z", strike := 55, premium := 1, contracts := 1
    dateOpened := "2024-01-05", expiration := "2024-02-02", status := CallStatus.assigned
    dateClosed := "2024-02-02", closePrice := none, totalPremium := none
    totalCloseCost := none }

/-- C9 counterexample: the matching position's cost basis is known (0) and
the strike 55 is at or above it, yet the assigned call is not
sub-classified above basis - the source tests costBasis for truthiness
(main.jsx 1713), so a known zero basis takes the no-basis narrative. -/
theorem post_mortem_subclass_cex :
    (getPostMortem "2024-06-01" [pZeroBasis] cAsgZ).verdict = "Assigned"
    ∧ (getPostMortem "2024-06-01" [pZeroBasis] cAsgZ).costBasis = some 0
    ∧ (0 : ℚ) ≤ cAsgZ.strike
    ∧ (getPostMortem "2024-06-01" [pZeroBasis] cAsgZ).insightClass = "assignedNoBasis" := by
  refine ⟨?_, ?_, by norm_num [cAsgZ], ?_⟩ <;>
    simp +decide [getPostMortem, jsToUpper, pZeroBasis, cAsgZ]

/-- C9 amended: the post-mortem applies the decision order expired =>
Full Win, assigned => Assigned (sub-classified by comparing strike to the
matching position's cost basis when that basis is found and nonzero - a
known zero basis takes the no-basis branch, see the counterexample),
closed => Partial Win iff net > 0 else Loss; and premium retained is
net/gross x 100, 0 when gross is 0. -/
theorem post_mortem_verdict (todayStr : String) (positions : List Position) (c : Call)
    (_hst : c.status ≠ CallStatus.open_) :
    (c.status = CallStatus.expired →
      (getPostMortem todayStr positions c).verdict = "Full Win")
    ∧ (c.status = CallStatus.assigned →
      (getPostMortem todayStr positions c).verdict = "Assigned"
      ∧ (∀ b, (getPostMortem todayStr positions c).costBasis = some b → b ≠ 0 →
          (((getPostMortem todayStr positions c).insightClass = "assignedAboveBasis" ↔
              b ≤ c.strike)
           ∧ ((getPostMortem todayStr positions c).insightClass = "assignedBelowBasis" ↔
              c.strike < b))))
    ∧ (c.status = CallStatus.closed →
      (((getPostMortem todayStr positions c).verdict = "Partial Win" ↔
          0 < (getPostMortem todayStr positions c).net)
       ∧ ((getPostMortem todayStr positions c).verdict = "Loss" ↔
          (getPostMortem todayStr positions c).net ≤ 0)))
    ∧ ((getPostMortem todayStr positions c).gross = 0 →
        (getPostMortem todayStr positions c).premiumRetained = 0)
    ∧ (0 < (getPostMortem todayStr positions c).gross →
        (getPostMortem todayStr positions c).premiumRetained =
          (getPostMortem todayStr positions c).net /
            (getPostMortem todayStr positions c).gross * 100) := by
  refine ⟨?_, ?_, ?_, ?_, ?_⟩
  · intro h; simp [getPostMortem, h]
  · intro h
    refine ⟨by simp [getPostMortem, h], ?_⟩
    intro b hb hbne
    have hb' : ((positions.find? fun p =>
        decide (jsToUpper p.ticker = jsToUpper c.ticker)).map Position.costBasis) = some b := hb
    have hic : (getPostMortem todayStr positions c).insightClass =
        if b ≤ c.strike then "assignedAboveBasis" else "assignedBelowBasis" := by
      simp [getPostMortem, h, hb', hbne]
    rw [hic]
    rcases le_or_lt b c.strike with hle | hlt
    · rw [if_pos hle]
      exact ⟨iff_of_true rfl hle, iff_of_false (by decide) (not_lt.mpr hle)⟩
    · rw [if_neg (not_le.mpr hlt)]
      exact ⟨iff_of_false (by decide) (not_le.mpr hlt), iff_of_true rfl hlt⟩
  · intro h
    have hv : (getPostMortem todayStr positions c).verdict =
        if closeCostOf c < grossPrem c then "Partial Win" else "Loss" := by
      simp [getPostMortem, h]
      split <;> rfl
    have hn : (getPostMortem todayStr positions c).net = grossPrem c - closeCostOf c := rfl
    rw [hv, hn]
    rcases lt_or_le (closeCostOf c) (grossPrem c) with hpos | hle
    · rw [if_pos hpos]
      exact ⟨iff_of_true rfl (sub_pos.mpr hpos),
        iff_of_false (by decide) (not_le.mpr (sub_pos.mpr hpos))⟩
    · rw [if_neg (not_lt.mpr hle)]
      exact ⟨iff_of_false (by decide) (not_lt.mpr (sub_nonpos.mpr hle)),
        iff_of_true rfl (sub_nonpos.mpr hle)⟩
  · intro h
    have hg : grossPrem c = 0 := h
    simp [getPostMortem, hg]
  · intro h
    have hg : 0 < grossPrem c := h
    simp [getPostMortem, hg]

theorem post_mortem_verdict_witness :
    (getPostMortem "2024-06-01" [pXYZ] cXYZ).gross = 200
    ∧ (getPostMortem "2024-06-01" [pXYZ] cXYZ).net = 200
    ∧ (getPostMortem "2024-06-01" [pXYZ] cXYZ).verdict = "Full Win"
    ∧ (getPostMortem "2024-06-01" [pXYZ] cXYZ).premiumRetained = 100 := by
  have h := post_mortem_verdict "2024-06-01" [pXYZ] cXYZ (by decide)
  have hg : (getPostMortem "2024-06-01" [pXYZ] cXYZ).gross = 200 := by
    show grossPrem cXYZ = 200
    norm_num [grossPrem, cXYZ]
  have hn : (getPostMortem "2024-06-01" [pXYZ] cXYZ).net = 200 := by
    show grossPrem cXYZ - closeCostOf cXYZ = 200
    norm_num [grossPrem, closeCostOf, cXYZ]
  refine ⟨hg, hn, h.1 rfl, ?_⟩
  rw [h.2.2.2.2 (by rw [hg]; norm_num), hg, hn]
  norm_num

end CCDash
